import Mathlib

/-!
Verification of the redis-schematics storage layer: a shallow embedding of
`redis_schematics/__init__.py` and `redis_schematics/utils.py` (Python 3),
together with theorems about the filter engine, the key builder and the two
storage layouts (Simple: one key per record; Hash: one hash per type).

Modelling conventions:
* Python values carried by record fields and filters are modelled by `PyVal`:
  the scalars `None`, `bool`, `int`, `str`, and flat lists of scalars (the
  container shape used by the `__in`/`__exclude` filter arguments).
  Comparison operators follow Python 3 semantics, where mixed-type order
  comparisons and `in` on non-containers raise `TypeError`.
* Python `dict`s are modelled as association lists with insertion-order
  semantics (`dlookup`, `dinsert`, `dictUpdate`).
* The schematics record-validation collaborator and the JSON
  serializer/deserializer are external collaborators (spec sections 1 and 6);
  import/export is modelled as field-map merge/projection and the serializer
  as the identity on primitive field maps (the spec requires exact round-trip
  fidelity and leaves the format substitutable).
* The redis client is modelled as an explicit store state plus a trace of
  issued commands (`Cmd`).
-/

set_option autoImplicit false

namespace RedisSchematics

/-- Python scalar values: `None`, `bool`, `int`, `str`. -/
inductive PyScalar where
  | pnone : PyScalar
  | pbool : Bool → PyScalar
  | pint : Int → PyScalar
  | pstr : String → PyScalar
  deriving DecidableEq, Repr

/-- Python values as they occur in record fields and filter arguments:
scalars and flat lists of scalars. -/
inductive PyVal where
  | pv : PyScalar → PyVal
  | plist : List PyScalar → PyVal
  deriving DecidableEq, Repr

/-- Shortcut for the Python value `None`. -/
def PyVal.vnone : PyVal := .pv .pnone

/-- Shortcut for a Python `bool` value. -/
def PyVal.vbool (b : Bool) : PyVal := .pv (.pbool b)

/-- Shortcut for a Python `int` value. -/
def PyVal.vint (n : Int) : PyVal := .pv (.pint n)

/-- Shortcut for a Python `str` value. -/
def PyVal.vstr (s : String) : PyVal := .pv (.pstr s)

/-- Errors that the embedded code can raise: the three library exceptions
from `redis_schematics/exceptions.py` plus the Python built-in errors that
the library code can leak (`TypeError` from comparisons or from joining
`None` into a key, `AttributeError` from `__unique_args__` resolution,
`KeyError` from an unknown operator suffix). -/
inductive Err where
  | NotFound : Err
  | MultipleFound : Err
  | StrictPerformanceException : Err
  | TypeError : Err
  | AttributeError : Err
  | KeyError : Err
  deriving DecidableEq, Repr

/-- Decidable equality of `Except` results, so that concrete runs of the
embedded code can be checked by `decide`. -/
instance instDecEqExcept {ε α : Type} [DecidableEq ε] [DecidableEq α] :
    DecidableEq (Except ε α)
  | .error e, .error f => decidable_of_iff (e = f) (by simp)
  | .error _, .ok _ => isFalse (by simp)
  | .ok _, .error _ => isFalse (by simp)
  | .ok x, .ok y => decidable_of_iff (x = y) (by simp)

/-- Python `==` on scalars: numeric cross-type equality holds between `bool`
and `int` (`True == 1`); values of unrelated types compare unequal without
raising; `None == None` is `True`. -/
def sEq : PyScalar → PyScalar → Bool
  | .pnone, .pnone => true
  | .pbool a, .pbool b => a == b
  | .pbool a, .pint b => (if a then (1 : Int) else 0) == b
  | .pint a, .pbool b => a == (if b then (1 : Int) else 0)
  | .pint a, .pint b => a == b
  | .pstr a, .pstr b => a == b
  | _, _ => false

/-- Elementwise Python `==` of two lists (same length and equal elements). -/
def listEq : List PyScalar → List PyScalar → Bool
  | [], [] => true
  | x :: xs, y :: ys => sEq x y && listEq xs ys
  | _, _ => false

/-- Python `==` on values: scalars compare via `sEq`, lists elementwise, and
a scalar never equals a list. Never raises. -/
def pyEq : PyVal → PyVal → Bool
  | .pv a, .pv b => sEq a b
  | .plist xs, .plist ys => listEq xs ys
  | _, _ => false

/-- Numeric view of a scalar: Python treats `bool` as the ints 0/1 in
comparisons; `None` and `str` are not numbers. -/
def toNum : PyScalar → Option Int
  | .pbool b => some (if b then 1 else 0)
  | .pint n => some n
  | _ => none

/-- Python 3 order comparison of two scalars: defined for number/number and
str/str pairs, `TypeError` otherwise (in particular for `None` against
anything, including `None` against `None`). -/
def sOrd : PyScalar → PyScalar → Except Err Ordering
  | a, b =>
    match toNum a, toNum b with
    | some x, some y => .ok (compare x y)
    | _, _ =>
      match a, b with
      | .pstr s, .pstr t => .ok (compare s t)
      | _, _ => .error .TypeError

/-- Python 3 lexicographic order comparison of two lists: skip elementwise
`==`-equal heads, order-compare the first unequal pair (which may raise
`TypeError`), fall back to length comparison. -/
def listOrd : List PyScalar → List PyScalar → Except Err Ordering
  | [], [] => .ok .eq
  | [], _ :: _ => .ok .lt
  | _ :: _, [] => .ok .gt
  | x :: xs, y :: ys => if sEq x y then listOrd xs ys else sOrd x y

/-- Python 3 order comparison of two values (`TypeError` on scalar/list
mixes, which Python refuses to order). -/
def pyOrd : PyVal → PyVal → Except Err Ordering
  | .pv a, .pv b => sOrd a b
  | .plist xs, .plist ys => listOrd xs ys
  | _, _ => .error .TypeError

/-- Substring test `needle in haystack` on the character lists of two Python
strings. -/
def isSubstring (needle haystack : List Char) : Bool :=
  (List.range (haystack.length + 1)).any
    (fun i => needle.isPrefixOf (haystack.drop i))

/-- Python `lhs in rhs`: membership for lists (elementwise `==`), substring
test for strings (raising `TypeError` when the left operand is not a string),
`TypeError` when the right operand is not a container. -/
def pyIn : PyVal → PyVal → Except Err Bool
  | .pv a, .plist xs => .ok (xs.any (fun e => sEq e a))
  | .plist _, .plist _ => .ok false
  | .pv (.pstr u), .pv (.pstr t) => .ok (isSubstring u.data t.data)
  | _, .pv (.pstr _) => .error .TypeError
  | _, .pv _ => .error .TypeError

/-- Python truthiness: `None`, `False`, `0`, `""` and `[]` are falsy. -/
def truthy : PyVal → Bool
  | .pv .pnone => false
  | .pv (.pbool b) => b
  | .pv (.pint n) => n != 0
  | .pv (.pstr s) => s ≠ ""
  | .plist xs => !xs.isEmpty

/-- Python `repr` of a scalar (strings quoted), used inside list display. -/
def sRepr : PyScalar → String
  | .pnone => "None"
  | .pbool b => if b then "True" else "False"
  | .pint n => toString n
  | .pstr s => "'" ++ s ++ "'"

/-- Python `str()` of a value (scalars display bare, lists display their
elements' `repr`). -/
def pyStr : PyVal → String
  | .pv .pnone => "None"
  | .pv (.pbool b) => if b then "True" else "False"
  | .pv (.pint n) => toString n
  | .pv (.pstr s) => s
  | .plist xs => "[" ++ String.intercalate ", " (xs.map sRepr) ++ "]"

example : pyEq (.plist [.pint 1, .pstr "a"]) (.plist [.pbool true, .pstr "a"]) = true := by decide

example : pyEq PyVal.vnone (PyVal.vint 0) = false := by decide

example : pyOrd PyVal.vnone (PyVal.vint 5) = .error .TypeError := by decide

example : pyStr (PyVal.vint 123) = "123" := by decide

/-- Python `k.endswith(sfx)`. -/
def pyEndsWith (k sfx : String) : Bool :=
  k.data.drop (k.data.length - sfx.data.length) == sfx.data

/-- Fuel-driven core of Python `s.replace(pat, "")`: scan left to right,
removing every non-overlapping occurrence of `pat`. The fuel is at least the
length of the scanned string at every call, so it is never exhausted. -/
def removeAllAux (pat : List Char) : Nat → List Char → List Char
  | 0, s => s
  | Nat.succ n, s =>
    match s with
    | [] => []
    | c :: rest =>
      if pat.isPrefixOf (c :: rest) ∧ pat ≠ [] then
        removeAllAux pat n ((c :: rest).drop pat.length)
      else
        c :: removeAllAux pat n rest

/-- Python `k.replace(pat, "")` for non-empty `pat`: remove every occurrence
of `pat` in `k`, not only a trailing one. -/
def removeAll (k pat : String) : String :=
  ⟨removeAllAux pat.data k.data.length k.data⟩

example : removeAll "good_number__lt" "__lt" = "good_number" := by decide

example : removeAll "a__lt__lt" "__lt" = "a" := by decide

/-- Fuel-driven glob matcher for redis `KEYS` patterns as used by this
library (`<prefix>:*`): `*` matches any run of characters, every other
character matches literally. -/
def globAux : Nat → List Char → List Char → Bool
  | 0, _, _ => false
  | _ + 1, [], s => s.isEmpty
  | n + 1, p :: ps, s =>
    if p = '*' then
      globAux n ps s || (match s with | [] => false | _ :: s2 => globAux n (p :: ps) s2)
    else
      match s with
      | [] => false
      | c :: s2 => p == c && globAux n ps s2

/-- Glob match of a redis key against a `KEYS` pattern. -/
def globMatch (pattern key : String) : Bool :=
  globAux (pattern.data.length + key.data.length + 1) pattern.data key.data

example : globMatch "TestModel:*" "TestModel:123" = true := by decide

example : globMatch "TestModel:*" "OtherModel:123" = false := by decide

/-- Python `dict` lookup on an association list (first matching key; lists
built by `dinsert` have unique keys). -/
def dlookup {α : Type} : List (String × α) → String → Option α
  | [], _ => none
  | (k, v) :: rest, q => if k = q then some v else dlookup rest q

/-- Python `dict` assignment `d[k] = v`: overwrite in place, keeping the
key's position, or append a new key at the end. -/
def dinsert {α : Type} : List (String × α) → String → α → List (String × α)
  | [], k, v => [(k, v)]
  | (k0, v0) :: rest, k, v =>
    if k0 = k then (k0, v) :: rest else (k0, v0) :: dinsert rest k v

/-- Python `d.update(upd)`: assign every pair of `upd` into `d` in order. -/
def dictUpdate {α : Type} (d upd : List (String × α)) : List (String × α) :=
  upd.foldl (fun acc kv => dinsert acc kv.1 kv.2) d

/-- Python `dict` comprehension over a pair list: later occurrences of a key
overwrite earlier ones. -/
def dfromPairs {α : Type} (pairs : List (String × α)) : List (String × α) :=
  dictUpdate [] pairs

/-- Keys of an association list, in order. -/
def keysOf {α : Type} (d : List (String × α)) : List String :=
  d.map Prod.fst

/-- A record instance: its field assignment, as a Python attribute
dictionary. -/
abbrev Rec : Type := List (String × PyVal)

/-- A serialized record as stored in redis: the primitive field map produced
by `to_primitive`. The JSON text encoding is the substitutable external
collaborator of spec section 6 and is modelled as the identity. -/
abbrev Prim : Type := List (String × PyVal)

/-- Python `getattr(obj, k, None)`: a missing field reads as `None` instead
of raising. -/
def getattrD (obj : Rec) (k : String) : PyVal :=
  (dlookup obj k).getD .vnone

/-- Keys of the `FILTER_OPS` table from `utils.py`, in source order. -/
def FILTER_OPS_KEYS : List String :=
  ["__gt", "__lt", "__gte", "__lte", "__eq", "__not", "__in", "__exclude"]

/-- Operator `lambda s, r: s > r` of `FILTER_OPS`. -/
def opGt (s r : PyVal) : Except Err Bool := (pyOrd s r).map (fun o => o == .gt)

/-- Operator `lambda s, r: s < r` of `FILTER_OPS`. -/
def opLt (s r : PyVal) : Except Err Bool := (pyOrd s r).map (fun o => o == .lt)

/-- Operator `lambda s, r: s >= r` of `FILTER_OPS`. -/
def opGte (s r : PyVal) : Except Err Bool := (pyOrd s r).map (fun o => o != .lt)

/-- Operator `lambda s, r: s <= r` of `FILTER_OPS`. -/
def opLte (s r : PyVal) : Except Err Bool := (pyOrd s r).map (fun o => o != .gt)

/-- Operator `lambda s, r: s == r` of `FILTER_OPS`. -/
def opEq (s r : PyVal) : Except Err Bool := .ok (pyEq s r)

/-- Operator `lambda s, r: s != r` of `FILTER_OPS`. -/
def opNe (s r : PyVal) : Except Err Bool := .ok (!pyEq s r)

/-- Operator `lambda s, r: s in r` of `FILTER_OPS`. -/
def opIn (s r : PyVal) : Except Err Bool := pyIn s r

/-- Operator `lambda s, r: s not in r` of `FILTER_OPS`. -/
def opExclude (s r : PyVal) : Except Err Bool := (pyIn s r).map (fun b => !b)

/-- The `FILTER_OPS` dictionary lookup `FILTER_OPS[suffix]`: `none` models a
Python `KeyError`. -/
def FILTER_OPS_find : String → Option (PyVal → PyVal → Except Err Bool)
  | "__gt" => some opGt
  | "__lt" => some opLt
  | "__gte" => some opGte
  | "__lte" => some opLte
  | "__eq" => some opEq
  | "__not" => some opNe
  | "__in" => some opIn
  | "__exclude" => some opExclude
  | _ => none

/-- A filter group: the mapping from operator suffix to a field-name-to-value
dictionary, as produced by `group_filters_by_suffix`. -/
abbrev FilterGroup : Type := List (String × List (String × PyVal))

/-- The inner helper `get_suffix` of `group_filters_by_suffix`: keep the
filters whose key ends with the suffix, then build the dict comprehension
`{k.replace(suffix, ""): v}` (Python `replace` removes every occurrence). -/
def get_suffix (filters : List (String × PyVal)) (sfx : String) :
    List (String × PyVal) :=
  dfromPairs ((filters.filter (fun kv => pyEndsWith kv.1 sfx)).map
    (fun kv => (removeAll kv.1 sfx, kv.2)))

/-- Membership of a filter key in the `used` dict accumulated by
`group_filters_by_suffix`: the key ends with at least one known suffix. -/
def matchesAny (k : String) : Bool :=
  FILTER_OPS_KEYS.any (fun sfx => pyEndsWith k sfx)

/-- Embedding of `group_filters_by_suffix` from `utils.py`: one group per
`FILTER_OPS` key in source order (`{k: get_suffix(k) for k in FILTER_OPS}`),
and the in-place `filter_group["__eq"].update(...)` — which adds the filters
consumed by no suffix under their original names — rendered pointwise on the
`__eq` entry. -/
def group_filters_by_suffix (filters : List (String × PyVal)) : FilterGroup :=
  let extra := filters.filter (fun kv => !matchesAny kv.1)
  FILTER_OPS_KEYS.map (fun sfx =>
    (sfx, if sfx = "__eq" then dictUpdate (get_suffix filters sfx) extra
          else get_suffix filters sfx))

/-- One group of `match_filters`: apply the operator to
`(getattr(obj, k, None), v)` for every pair, short-circuiting on the first
`False` and propagating a raised `TypeError`. -/
def evalGroup (obj : Rec) (op : PyVal → PyVal → Except Err Bool) :
    List (String × PyVal) → Except Err Bool
  | [] => .ok true
  | (k, v) :: rest =>
    match op (getattrD obj k) v with
    | .error e => .error e
    | .ok false => .ok false
    | .ok true => evalGroup obj op rest

/-- Embedding of `match_filters` from `utils.py`: for every suffix group look
up the operator in `FILTER_OPS` (an unknown suffix is a `KeyError`), evaluate
every pair, and return `False` on the first failing predicate, `True` if all
pairs pass. -/
def match_filters (obj : Rec) : FilterGroup → Except Err Bool
  | [] => .ok true
  | (sfx, g) :: rest =>
    match FILTER_OPS_find sfx with
    | none => .error .KeyError
    | some op =>
      match evalGroup obj op g with
      | .error e => .error e
      | .ok false => .ok false
      | .ok true => match_filters obj rest

example :
    group_filters_by_suffix [("good_number__lt", .vint 43), ("name", .vstr "Bar")] =
      [("__gt", []), ("__lt", [("good_number", .vint 43)]), ("__gte", []),
       ("__lte", []), ("__eq", [("name", .vstr "Bar")]), ("__not", []),
       ("__in", []), ("__exclude", [])] := by decide

example :
    match_filters [("good_number", .vint 42)]
      (group_filters_by_suffix [("good_number__lt", .vint 43)]) = .ok true := by decide

example :
    match_filters []
      (group_filters_by_suffix [("x__gt", .vint 5)]) = .error .TypeError := by decide

/-- Class-level configuration of a record type using one of the mixins: the
type name (`__prefix__` defaults to the class name), the declared schema
fields (in declaration order, as exported by `to_primitive`), and the
`__unique_args__`, `__strict_performance__` and `__expire__` settings of
`BaseRedisMixin`. -/
structure RClass where
  name : String
  schema_fields : List String
  unique_args : Option (List String)
  strict : Bool
  expire : Option Int
  deriving DecidableEq, Repr

/-- Truthiness of the `__unique_args__` setting (`None` and `[]` are falsy in
the `if self.__unique_args__:` check). -/
def uaTruthy (cls : RClass) : Bool :=
  match cls.unique_args with
  | none => false
  | some l => !l.isEmpty

/-- Record import as performed by the schematics collaborator
(`cls().import_data(data)` and `cls(data)`): merge the given field map into
the instance's fields. -/
def import_data (r : Rec) (data : List (String × PyVal)) : Rec :=
  dictUpdate r data

/-- Record export as performed by the schematics collaborator
(`to_primitive`): emit every declared schema field in declaration order,
unset fields exporting as `None`. -/
def to_primitive (cls : RClass) (r : Rec) : Prim :=
  cls.schema_fields.map (fun f => (f, getattrD r f))

/-- The static method `__serializer__` (`json.dumps`): the JSON text format
is a substitutable external collaborator with exact round-trip fidelity
(spec section 6), modelled as the identity on primitive field maps. -/
def __serializer__ (p : Prim) : Prim := p

/-- The static method `__deserializer__` (`json.loads`), inverse of
`__serializer__` under the required round-trip fidelity; modelled as the
identity on primitive field maps. -/
def __deserializer__ (p : Prim) : Prim := p

/-- The string `str(uuid.uuid4)` computed by `set()`: the source converts the
`uuid.uuid4` *function object* to text without calling it, so the result is
the `repr` of the function — one constant string for the whole process (the
address part of the CPython `repr` is elided here). -/
def str_uuid_uuid4 : String := "<function uuid4>"

/-- The list comprehension `[getattr(self, const) for const in
self.__unique_args__]` followed by the string checks of `".".join`: a name
outside the schema raises `AttributeError` (bare `getattr` without default),
and a non-string value makes `join` raise `TypeError`. -/
def joinArgs (cls : RClass) (r : Rec) : List String → Except Err (List String)
  | [] => .ok []
  | a :: rest =>
    if a ∈ cls.schema_fields then
      match getattrD r a with
      | .pv (.pstr s) =>
        match joinArgs cls r rest with
        | .error e => .error e
        | .ok tl => .ok (s :: tl)
      | _ => .error .TypeError
    else .error .AttributeError

/-- Embedding of `BaseRedisMixin.__primary_key__`: use a truthy `pk` field,
else a truthy `id` field (both via `str(...)`), else — when
`__unique_args__` is truthy — join the named attributes with a dot, where a
missing attribute raises `AttributeError` and joining a non-string raises
`TypeError`; otherwise resolve to no primary key (`None`). -/
def primary_key (cls : RClass) (r : Rec) : Except Err (Option String) :=
  if truthy (getattrD r "pk") then .ok (some (pyStr (getattrD r "pk")))
  else if truthy (getattrD r "id") then .ok (some (pyStr (getattrD r "id")))
  else if uaTruthy cls then
    match joinArgs cls r ((cls.unique_args).getD []) with
    | .error e => .error e
    | .ok parts => .ok (some (String.intercalate "." parts))
  else .ok none

/-- Embedding of `BaseRedisMixin.__key_pattern__` for string segments: start
from the prefix when it is non-empty, append all given segments (empty or
not), and join with `":"`. -/
def key_pattern (pfx : String) (args : List String) : String :=
  String.intercalate ":"
    ((if pfx ≠ "" then [pfx] else []) ++ (if args ≠ [] then args else []))

example : key_pattern "TestModel" ["123"] = "TestModel:123" := by decide

example : key_pattern "TestModel" [] = "TestModel" := by decide

example : key_pattern "TestModel" [""] = "TestModel:" := by decide

/-- The `key` property, `self.__key_pattern__(self.__primary_key__)`: when
the primary key resolves to `None`, `":".join` receives a `None` element and
raises `TypeError`; a resolved (possibly empty) string is used as the single
key segment. -/
def objKey (cls : RClass) (r : Rec) : Except Err String :=
  match primary_key cls r with
  | .error e => .error e
  | .ok none => .error .TypeError
  | .ok (some s) => .ok (key_pattern cls.name [s])

/-- The redis commands issued by the embedded operations, recorded as an
execution trace. -/
inductive Cmd where
  | getCmd : String → Cmd
  | setCmd : String → Prim → Option Int → Cmd
  | delCmd : List String → Cmd
  | keysCmd : String → Cmd
  | mgetCmd : List String → Cmd
  | hgetCmd : String → String → Cmd
  | hsetCmd : String → String → Prim → Cmd
  | hgetallCmd : String → Cmd
  | hdelCmd : String → List String → Cmd
  | expireCmd : String → Option Int → Cmd
  deriving DecidableEq, Repr

/-- The state of the redis database seen by the Simple layout: one key per
record, holding the serialized record. -/
abbrev SStore : Type := List (String × Prim)

/-- The state of the redis database seen by the Hash layout: one hash per
type, one field per record. -/
abbrev HStore : Type := List (String × List (String × Prim))

/-- Redis `KEYS pattern` over the Simple store: all stored keys matching the
glob pattern, in store order. -/
def skeys (st : SStore) (pattern : String) : List String :=
  (keysOf st).filter (fun k => globMatch pattern k)

/-- Remove a list of keys from the Simple store. -/
def sRemoveKeys (st : SStore) (ks : List String) : SStore :=
  st.filter (fun kv => !ks.contains kv.1)

/-- Deserialize the results of `MGET`: redis returns `nil` for an absent key,
which `__deserializer__` would fail to decode (`str(None, ...)` raises
`TypeError`). -/
def seqVals : List (Option Prim) → Except Err (List Prim)
  | [] => .ok []
  | none :: _ => .error .TypeError
  | some p :: rest => (seqVals rest).map (fun tl => __deserializer__ p :: tl)

/-- The list comprehension `[r for r in cls.all() if match_filters(r, g)]`:
keep the matching records, propagating an exception raised by a predicate. -/
def filterRecs (g : FilterGroup) : List Rec → Except Err (List Rec)
  | [] => .ok []
  | r :: rs =>
    match match_filters r g with
    | .error e => .error e
    | .ok true => (filterRecs g rs).map (fun tl => r :: tl)
    | .ok false => filterRecs g rs

/-- Embedding of `SimpleRedisMixin._all_keys`: `KEYS <prefix>:*`. -/
def simple_all_keys (cls : RClass) (st : SStore) : List String × List Cmd :=
  let pattern := key_pattern cls.name ["*"]
  (skeys st pattern, [Cmd.keysCmd pattern])

/-- Embedding of `SimpleRedisMixin.all`: raise `StrictPerformanceException`
first when configured, list the matching keys, return `[]` without a further
round trip when there are none, else `MGET` and deserialize every value into
a fresh instance. -/
def simple_all (cls : RClass) (st : SStore) :
    Except Err (List Rec) × List Cmd :=
  if cls.strict then (.error .StrictPerformanceException, [])
  else
    let (ks, tr) := simple_all_keys cls st
    if ks.isEmpty then (.ok [], tr)
    else
      match seqVals (ks.map (dlookup st)) with
      | .error e => (.error e, tr ++ [Cmd.mgetCmd ks])
      | .ok prims =>
        (.ok (prims.map (fun p => import_data [] p)), tr ++ [Cmd.mgetCmd ks])

/-- Embedding of `SimpleRedisMixin.filter`: raise
`StrictPerformanceException` first when configured, group the keyword
filters, then keep the records of `all()` passing `match_filters`. -/
def simple_filter (cls : RClass) (kwargs : List (String × PyVal))
    (st : SStore) : Except Err (List Rec) × List Cmd :=
  if cls.strict then (.error .StrictPerformanceException, [])
  else
    let fg := group_filters_by_suffix kwargs
    match simple_all cls st with
    | (.error e, tr) => (.error e, tr)
    | (.ok recs, tr) =>
      match filterRecs fg recs with
      | .error e => (.error e, tr)
      | .ok l => (.ok l, tr)

/-- Embedding of `SimpleRedisMixin.match_for_pk`: build `cls({"pk": pk})`,
`GET` its key (a falsy `pk` makes the key computation itself raise
`TypeError`), raise `NotFound` on an absent key, else deserialize and import
into the schema instance. -/
def simple_match_for_pk (cls : RClass) (pk : String) (st : SStore) :
    Except Err Rec × List Cmd :=
  let schema : Rec := import_data [] [("pk", PyVal.vstr pk)]
  match objKey cls schema with
  | .error e => (.error e, [])
  | .ok k =>
    match dlookup st k with
    | none => (.error .NotFound, [Cmd.getCmd k])
    | some v => (.ok (import_data schema (__deserializer__ v)), [Cmd.getCmd k])

/-- Embedding of `SimpleRedisMixin.match_for_values`: run `filter`, then
raise `NotFound` on zero results, `MultipleFound` on two or more, and return
`query[0]` on exactly one (written as a case split on the result list, which
is equivalent to the source's length tests). -/
def simple_match_for_values (cls : RClass) (kwargs : List (String × PyVal))
    (st : SStore) : Except Err Rec × List Cmd :=
  match simple_filter cls kwargs st with
  | (.error e, tr) => (.error e, tr)
  | (.ok query, tr) =>
    match query with
    | [] => (.error .NotFound, tr)
    | [x] => (.ok x, tr)
    | _ :: _ :: _ => (.error .MultipleFound, tr)

/-- Embedding of `SimpleRedisMixin.match`: import the keyword arguments into
a fresh instance; when its `__primary_key__` is truthy take the
`match_for_pk` fast path, else delegate to `match_for_values`. -/
def simple_match (cls : RClass) (kwargs : List (String × PyVal))
    (st : SStore) : Except Err Rec × List Cmd :=
  let schema := import_data [] kwargs
  match primary_key cls schema with
  | .error e => (.error e, [])
  | .ok (some s) =>
    if s ≠ "" then simple_match_for_pk cls s st
    else simple_match_for_values cls kwargs st
  | .ok none => simple_match_for_values cls kwargs st

/-- Embedding of `SimpleRedisMixin.set`: assign
`self.pk = self.__primary_key__ or str(uuid.uuid4)` (note: the *function
object* stringified, not a fresh UUID), then `SET key value ttl` with the
serialized `to_primitive` dump, overwriting unconditionally. -/
def simple_set (cls : RClass) (r : Rec) (st : SStore) :
    Except Err Rec × SStore × List Cmd :=
  match primary_key cls r with
  | .error e => (.error e, st, [])
  | .ok pkv =>
    let pkStr :=
      match pkv with
      | some s => if s ≠ "" then s else str_uuid_uuid4
      | none => str_uuid_uuid4
    let r2 := dinsert r "pk" (PyVal.vstr pkStr)
    match objKey cls r2 with
    | .error e => (.error e, st, [])
    | .ok k =>
      let v := __serializer__ (to_primitive cls r2)
      (.ok r2, dinsert st k v, [Cmd.setCmd k v cls.expire])

/-- Embedding of `SimpleRedisMixin.delete_all`: the keyword arguments are
accepted but never used; list all keys of the type, return `0` without a
delete when there are none, else `DEL` them all and return the count. -/
def simple_delete_all (cls : RClass) (kwargs : List (String × PyVal))
    (st : SStore) : Except Err Nat × SStore × List Cmd :=
  let pattern := key_pattern cls.name ["*"]
  let ks := skeys st pattern
  if ks.isEmpty then (.ok 0, st, [Cmd.keysCmd pattern])
  else (.ok ks.length, sRemoveKeys st ks, [Cmd.keysCmd pattern, Cmd.delCmd ks])

/-- The `__set_key__` property of `HashRedisMixin`:
`self.__key_pattern__()`, the bare type prefix by default. -/
def set_key (cls : RClass) : String := key_pattern cls.name []

/-- Redis `HGET hash field` over the Hash store. -/
def hash_hget (hst : HStore) (h f : String) : Option Prim :=
  (dlookup hst h).bind (fun d => dlookup d f)

/-- Embedding of `HashRedisMixin.match_for_pk`: like the Simple variant but
via `HGET <set key> <record key>`. -/
def hash_match_for_pk (cls : RClass) (pk : String) (hst : HStore) :
    Except Err Rec × List Cmd :=
  let schema : Rec := import_data [] [("pk", PyVal.vstr pk)]
  match objKey cls schema with
  | .error e => (.error e, [])
  | .ok k =>
    match hash_hget hst (set_key cls) k with
    | none => (.error .NotFound, [Cmd.hgetCmd (set_key cls) k])
    | some v =>
      (.ok (import_data schema (__deserializer__ v)), [Cmd.hgetCmd (set_key cls) k])

/-- Embedding of `HashRedisMixin.all`: `HGETALL <set key>` and deserialize
every value. Note that, unlike `SimpleRedisMixin.all`, the source performs no
`__strict_performance__` check here. -/
def hash_all (cls : RClass) (hst : HStore) :
    Except Err (List Rec) × List Cmd :=
  let vals := ((dlookup hst (set_key cls)).getD []).map Prod.snd
  (.ok (vals.map (fun v => import_data [] (__deserializer__ v))),
   [Cmd.hgetallCmd (set_key cls)])

/-- Embedding of `HashRedisMixin.filter`: raise `StrictPerformanceException`
first when configured, group the keyword filters, then keep the records of
`all()` passing `match_filters`. -/
def hash_filter (cls : RClass) (kwargs : List (String × PyVal))
    (hst : HStore) : Except Err (List Rec) × List Cmd :=
  if cls.strict then (.error .StrictPerformanceException, [])
  else
    let fg := group_filters_by_suffix kwargs
    match hash_all cls hst with
    | (.error e, tr) => (.error e, tr)
    | (.ok recs, tr) =>
      match filterRecs fg recs with
      | .error e => (.error e, tr)
      | .ok l => (.ok l, tr)

/-- Embedding of `HashRedisMixin.match_for_values`: run `filter`, then raise
`NotFound` on zero results, `MultipleFound` on two or more, and return the
single result (case split equivalent to the source's length tests). -/
def hash_match_for_values (cls : RClass) (kwargs : List (String × PyVal))
    (hst : HStore) : Except Err Rec × List Cmd :=
  match hash_filter cls kwargs hst with
  | (.error e, tr) => (.error e, tr)
  | (.ok query, tr) =>
    match query with
    | [] => (.error .NotFound, tr)
    | [x] => (.ok x, tr)
    | _ :: _ :: _ => (.error .MultipleFound, tr)

/-- Embedding of `HashRedisMixin.match`: import the keyword arguments into a
fresh instance; when its `__primary_key__` is truthy take the `match_for_pk`
fast path, else delegate to `match_for_values`. -/
def hash_match (cls : RClass) (kwargs : List (String × PyVal))
    (hst : HStore) : Except Err Rec × List Cmd :=
  let schema := import_data [] kwargs
  match primary_key cls schema with
  | .error e => (.error e, [])
  | .ok (some s) =>
    if s ≠ "" then hash_match_for_pk cls s hst
    else hash_match_for_values cls kwargs hst
  | .ok none => hash_match_for_values cls kwargs hst

/-- Embedding of `HashRedisMixin.set`: assign
`self.pk = self.__primary_key__ or str(uuid.uuid4)` (the function object
stringified), then `HSET <set key> <record key> <value>` followed by
`EXPIRE <set key> <ttl>` on the whole hash. -/
def hash_set (cls : RClass) (r : Rec) (hst : HStore) :
    Except Err Rec × HStore × List Cmd :=
  match primary_key cls r with
  | .error e => (.error e, hst, [])
  | .ok pkv =>
    let pkStr :=
      match pkv with
      | some s => if s ≠ "" then s else str_uuid_uuid4
      | none => str_uuid_uuid4
    let r2 := dinsert r "pk" (PyVal.vstr pkStr)
    match objKey cls r2 with
    | .error e => (.error e, hst, [])
    | .ok k =>
      let v := __serializer__ (to_primitive cls r2)
      let cur := (dlookup hst (set_key cls)).getD []
      (.ok r2, dinsert hst (set_key cls) (dinsert cur k v),
       [Cmd.hsetCmd (set_key cls) k v, Cmd.expireCmd (set_key cls) cls.expire])

/-- Embedding of `HashRedisMixin.delete_all`: the keyword arguments are
accepted but never used; one `DEL` of the whole hash key, whose redis return
value is the number of top-level keys removed (1 or 0). -/
def hash_delete_all (cls : RClass) (kwargs : List (String × PyVal))
    (hst : HStore) : Except Err Nat × HStore × List Cmd :=
  let h := set_key cls
  (.ok (if (dlookup hst h).isSome then 1 else 0),
   hst.filter (fun kv => kv.1 != h), [Cmd.delCmd [h]])

/-! ## Dictionary lemmas -/

theorem dlookup_dinsert {α : Type} (d : List (String × α)) (k q : String) (v : α) :
    dlookup (dinsert d k v) q = if k = q then some v else dlookup d q := by
  induction d with
  | nil => simp [dinsert, dlookup]
  | cons kv rest ih =>
    obtain ⟨k0, v0⟩ := kv
    by_cases h0 : k0 = k <;> by_cases h1 : k = q <;>
      simp_all [dinsert, dlookup]

theorem dlookup_dictUpdate_not_mem {α : Type} (d P : List (String × α))
    (q : String) (h : q ∉ keysOf P) :
    dlookup (dictUpdate d P) q = dlookup d q := by
  induction P generalizing d with
  | nil => rfl
  | cons kv P ih =>
    obtain ⟨k0, v0⟩ := kv
    have h1 : q ≠ k0 := fun hh => h (by simp [keysOf, hh])
    have h2 : q ∉ keysOf P := fun hh => h (by
      simp only [keysOf, List.map_cons, List.mem_cons]
      exact Or.inr hh)
    have hstep : dictUpdate d ((k0, v0) :: P) = dictUpdate (dinsert d k0 v0) P := rfl
    rw [hstep, ih _ h2, dlookup_dinsert, if_neg (fun hh => h1 hh.symm)]

theorem dlookup_dictUpdate_const {α : Type} (d P : List (String × α))
    (q : String) (v : α) (hmem : (q, v) ∈ P)
    (hconst : ∀ w, (q, w) ∈ P → w = v) :
    dlookup (dictUpdate d P) q = some v := by
  induction P generalizing d with
  | nil => cases hmem
  | cons kv P ih =>
    obtain ⟨k0, v0⟩ := kv
    have hstep : dictUpdate d ((k0, v0) :: P) = dictUpdate (dinsert d k0 v0) P := rfl
    rw [hstep]
    by_cases hq : q ∈ keysOf P
    · obtain ⟨x, hx, hx1⟩ := List.mem_map.mp hq
      obtain ⟨a, w⟩ := x
      have ha : a = q := hx1
      subst ha
      have hw : w = v := hconst w (List.mem_cons_of_mem _ hx)
      subst hw
      exact ih (dinsert d k0 v0) hx (fun w2 hw2 => hconst w2 (List.mem_cons_of_mem _ hw2))
    · have hhead : (q, v) = (k0, v0) := by
        rcases List.mem_cons.mp hmem with h | h
        · exact h
        · exact absurd (List.mem_map.mpr ⟨(q, v), h, rfl⟩) hq
      have hk : k0 = q := (congrArg Prod.fst hhead).symm
      have hv : v0 = v := (congrArg Prod.snd hhead).symm
      rw [dlookup_dictUpdate_not_mem _ _ _ hq, dlookup_dinsert, if_pos hk, hv]

/-- Round trip of the record-validation collaborator: exporting a record,
importing the dump into any instance, and exporting again reproduces the
dump. -/
theorem to_primitive_import (cls : RClass) (base r : Rec) :
    to_primitive cls (import_data base (to_primitive cls r)) = to_primitive cls r := by
  unfold to_primitive import_data
  apply List.map_congr_left
  intro f hf
  have hmem : (f, getattrD r f) ∈ cls.schema_fields.map (fun g => (g, getattrD r g)) :=
    List.mem_map.mpr ⟨f, hf, rfl⟩
  have hconst : ∀ w, (f, w) ∈ cls.schema_fields.map (fun g => (g, getattrD r g)) →
      w = getattrD r f := by
    intro w hw
    obtain ⟨g, _, hgw⟩ := List.mem_map.mp hw
    have hg : g = f := congrArg Prod.fst hgw
    have hw2 : getattrD r g = w := congrArg Prod.snd hgw
    rw [← hw2, hg]
  have hlook := dlookup_dictUpdate_const base _ f (getattrD r f) hmem hconst
  simp only [getattrD] at hlook ⊢
  rw [hlook, Option.getD_some]

/-! ## Evaluation lemmas for `set` and `match_for_pk` -/

theorem primary_key_after_pk_assign (cls : RClass) (r : Rec) (s : String)
    (hs : s ≠ "") :
    primary_key cls (dinsert r "pk" (PyVal.vstr s)) = .ok (some s) := by
  have hlook : dlookup (dinsert r "pk" (PyVal.vstr s)) "pk" = some (PyVal.vstr s) := by
    rw [dlookup_dinsert]; simp
  unfold primary_key getattrD
  rw [hlook]
  simp [PyVal.vstr, truthy, pyStr, hs]

theorem objKey_after_pk_assign (cls : RClass) (r : Rec) (s : String)
    (hs : s ≠ "") :
    objKey cls (dinsert r "pk" (PyVal.vstr s)) = .ok (key_pattern cls.name [s]) := by
  unfold objKey
  rw [primary_key_after_pk_assign cls r s hs]

theorem pk_schema_eq (s : String) :
    import_data [] [("pk", PyVal.vstr s)] = [("pk", PyVal.vstr s)] := rfl

theorem objKey_pk_schema (cls : RClass) (s : String) (hs : s ≠ "") :
    objKey cls (import_data [] [("pk", PyVal.vstr s)]) = .ok (key_pattern cls.name [s]) := by
  rw [pk_schema_eq]
  have : ([("pk", PyVal.vstr s)] : Rec) = dinsert [] "pk" (PyVal.vstr s) := rfl
  rw [this, objKey_after_pk_assign cls [] s hs]

theorem simple_set_eval (cls : RClass) (r : Rec) (st : SStore) (s : String)
    (hpk : primary_key cls r = .ok (some s)) (hs : s ≠ "") :
    simple_set cls r st =
      (.ok (dinsert r "pk" (PyVal.vstr s)),
       dinsert st (key_pattern cls.name [s])
         (__serializer__ (to_primitive cls (dinsert r "pk" (PyVal.vstr s)))),
       [Cmd.setCmd (key_pattern cls.name [s])
         (__serializer__ (to_primitive cls (dinsert r "pk" (PyVal.vstr s)))) cls.expire]) := by
  unfold simple_set
  rw [hpk]
  simp only [if_pos hs]
  rw [objKey_after_pk_assign cls r s hs]

theorem hash_set_eval (cls : RClass) (r : Rec) (hst : HStore) (s : String)
    (hpk : primary_key cls r = .ok (some s)) (hs : s ≠ "") :
    hash_set cls r hst =
      (.ok (dinsert r "pk" (PyVal.vstr s)),
       dinsert hst (set_key cls)
         (dinsert ((dlookup hst (set_key cls)).getD []) (key_pattern cls.name [s])
           (__serializer__ (to_primitive cls (dinsert r "pk" (PyVal.vstr s))))),
       [Cmd.hsetCmd (set_key cls) (key_pattern cls.name [s])
         (__serializer__ (to_primitive cls (dinsert r "pk" (PyVal.vstr s)))),
        Cmd.expireCmd (set_key cls) cls.expire]) := by
  unfold hash_set
  rw [hpk]
  simp only [if_pos hs]
  rw [objKey_after_pk_assign cls r s hs]

theorem objKey_pk_list (cls : RClass) (s : String) (hs : s ≠ "") :
    objKey cls [("pk", PyVal.vstr s)] = .ok (key_pattern cls.name [s]) := by
  have h : ([("pk", PyVal.vstr s)] : Rec) = dinsert [] "pk" (PyVal.vstr s) := rfl
  rw [h, objKey_after_pk_assign cls [] s hs]

theorem simple_match_for_pk_eval (cls : RClass) (s : String) (st : SStore)
    (v : Prim) (hs : s ≠ "")
    (hv : dlookup st (key_pattern cls.name [s]) = some v) :
    simple_match_for_pk cls s st =
      (.ok (import_data [("pk", PyVal.vstr s)] (__deserializer__ v)),
       [Cmd.getCmd (key_pattern cls.name [s])]) := by
  unfold simple_match_for_pk
  simp only [pk_schema_eq]
  rw [objKey_pk_list cls s hs]
  simp [hv]

theorem hash_match_for_pk_eval (cls : RClass) (s : String) (hst : HStore)
    (v : Prim) (hs : s ≠ "")
    (hv : hash_hget hst (set_key cls) (key_pattern cls.name [s]) = some v) :
    hash_match_for_pk cls s hst =
      (.ok (import_data [("pk", PyVal.vstr s)] (__deserializer__ v)),
       [Cmd.hgetCmd (set_key cls) (key_pattern cls.name [s])]) := by
  unfold hash_match_for_pk
  simp only [pk_schema_eq]
  rw [objKey_pk_list cls s hs]
  simp [hv]

/-- Concrete record type mirroring `TestSimpleModel` from the integration
tests: fields `pk`, `id`, `name`, `created`, `good_number`, no
`__unique_args__`, strict performance off, 120 second expiry. -/
def TestCls : RClass :=
  { name := "TestSimpleModel"
    schema_fields := ["pk", "id", "name", "created", "good_number"]
    unique_args := none
    strict := false
    expire := some 120 }

/-- Concrete record instance mirroring the integration tests' fixture
(`created` left unset here). -/
def demoRec : Rec :=
  [("id", PyVal.vint 123), ("name", PyVal.vstr "Bar"), ("good_number", PyVal.vint 42)]

example : primary_key TestCls demoRec = .ok (some "123") := by decide

/-- Claim C1: for every record whose primary key resolves (to a truthy
string), `set()` followed by `match_for_pk(R.pk)` on the same layout returns
a record whose serialized form equals the stored record's serialized form,
for both the Simple and the Hash layout. -/
theorem claim_C1_roundtrip (cls : RClass) (r : Rec) (st : SStore)
    (hst : HStore) (s : String)
    (hpk : primary_key cls r = .ok (some s)) (hs : s ≠ "") :
    (∃ r2 st2 tr rec tr2,
      simple_set cls r st = (.ok r2, st2, tr) ∧
      dlookup r2 "pk" = some (PyVal.vstr s) ∧
      simple_match_for_pk cls s st2 = (.ok rec, tr2) ∧
      __serializer__ (to_primitive cls rec) = __serializer__ (to_primitive cls r2)) ∧
    (∃ r2 hst2 tr rec tr2,
      hash_set cls r hst = (.ok r2, hst2, tr) ∧
      dlookup r2 "pk" = some (PyVal.vstr s) ∧
      hash_match_for_pk cls s hst2 = (.ok rec, tr2) ∧
      __serializer__ (to_primitive cls rec) = __serializer__ (to_primitive cls r2)) := by
  have hpklook : dlookup (dinsert r "pk" (PyVal.vstr s)) "pk" = some (PyVal.vstr s) := by
    rw [dlookup_dinsert]; simp
  constructor
  · refine ⟨dinsert r "pk" (PyVal.vstr s),
      dinsert st (key_pattern cls.name [s])
        (__serializer__ (to_primitive cls (dinsert r "pk" (PyVal.vstr s)))),
      [Cmd.setCmd (key_pattern cls.name [s])
        (__serializer__ (to_primitive cls (dinsert r "pk" (PyVal.vstr s)))) cls.expire],
      import_data [("pk", PyVal.vstr s)]
        (__deserializer__ (__serializer__ (to_primitive cls (dinsert r "pk" (PyVal.vstr s))))),
      [Cmd.getCmd (key_pattern cls.name [s])],
      simple_set_eval cls r st s hpk hs, hpklook, ?_, ?_⟩
    · refine simple_match_for_pk_eval cls s _ _ hs ?_
      rw [dlookup_dinsert]; simp
    · exact congrArg __serializer__ (to_primitive_import cls _ _)
  · refine ⟨dinsert r "pk" (PyVal.vstr s),
      dinsert hst (set_key cls)
        (dinsert ((dlookup hst (set_key cls)).getD []) (key_pattern cls.name [s])
          (__serializer__ (to_primitive cls (dinsert r "pk" (PyVal.vstr s))))),
      [Cmd.hsetCmd (set_key cls) (key_pattern cls.name [s])
        (__serializer__ (to_primitive cls (dinsert r "pk" (PyVal.vstr s)))),
       Cmd.expireCmd (set_key cls) cls.expire],
      import_data [("pk", PyVal.vstr s)]
        (__deserializer__ (__serializer__ (to_primitive cls (dinsert r "pk" (PyVal.vstr s))))),
      [Cmd.hgetCmd (set_key cls) (key_pattern cls.name [s])],
      hash_set_eval cls r hst s hpk hs, hpklook, ?_, ?_⟩
    · refine hash_match_for_pk_eval cls s _ _ hs ?_
      unfold hash_hget
      simp [dlookup_dinsert]
    · exact congrArg __serializer__ (to_primitive_import cls _ _)

/-- Witness for claim C1 at the integration-test fixture: the record
`{id: 123, name: "Bar", good_number: 42}` resolves pk `"123"`, and the
round trip holds on both (empty) stores. -/
theorem claim_C1_roundtrip_witness :
    (∃ r2 st2 tr rec tr2,
      simple_set TestCls demoRec [] = (.ok r2, st2, tr) ∧
      dlookup r2 "pk" = some (PyVal.vstr "123") ∧
      simple_match_for_pk TestCls "123" st2 = (.ok rec, tr2) ∧
      __serializer__ (to_primitive TestCls rec) = __serializer__ (to_primitive TestCls r2)) ∧
    (∃ r2 hst2 tr rec tr2,
      hash_set TestCls demoRec [] = (.ok r2, hst2, tr) ∧
      dlookup r2 "pk" = some (PyVal.vstr "123") ∧
      hash_match_for_pk TestCls "123" hst2 = (.ok rec, tr2) ∧
      __serializer__ (to_primitive TestCls rec) = __serializer__ (to_primitive TestCls r2)) :=
  claim_C1_roundtrip TestCls demoRec [] [] "123" (by decide) (by decide)

/-- Claim C5 counterexample: the key builder does not drop empty segments —
`__key_pattern__` appends every segment, so an empty segment contributes a
separator (`"P" ++ [""]` builds `"P:"`, not `"P"`, and `"P" ++ ["", "a"]`
builds `"P::a"`, not `"P:a"`). -/
theorem claim_C5_counterexample :
    key_pattern "P" [""] = "P:" ∧ "P:" ≠ "P" ∧
    key_pattern "P" ["", "a"] = "P::a" ∧ "P::a" ≠ "P:a" := by decide

/-- Claim C5 as amended: only an empty *prefix* is omitted from the join;
every segment, empty or not, is joined with `":"`, so the result is always
`intercalate ":" (prefix? ++ segments)` and with an empty prefix exactly
`intercalate ":" segments`. -/
theorem claim_C5_amended (P : String) (args : List String) :
    key_pattern P args =
      String.intercalate ":" ((if P ≠ "" then [P] else []) ++ args) ∧
    key_pattern "" args = String.intercalate ":" args := by
  constructor
  · cases args <;> simp [key_pattern]
  · cases args <;> simp [key_pattern]

/-- Claim C10: `delete_all` accepts keyword arguments but ignores them — for
any keyword mapping it returns the same count, leaves the same store, and
issues the same commands as the zero-argument call, on both layouts. -/
theorem claim_C10_delete_all_ignores_kwargs (cls : RClass)
    (kwargs : List (String × PyVal)) (st : SStore) (hst : HStore) :
    simple_delete_all cls kwargs st = simple_delete_all cls [] st ∧
    hash_delete_all cls kwargs hst = hash_delete_all cls [] hst :=
  ⟨rfl, rfl⟩

theorem primary_key_none (cls : RClass) (r : Rec)
    (hpk : truthy (getattrD r "pk") = false)
    (hid : truthy (getattrD r "id") = false)
    (hua : uaTruthy cls = false) :
    primary_key cls r = .ok none := by
  unfold primary_key
  simp [hpk, hid, hua]

theorem str_uuid_uuid4_ne_empty : str_uuid_uuid4 ≠ "" := by decide

theorem simple_set_eval_uuid (cls : RClass) (r : Rec) (st : SStore)
    (hnone : primary_key cls r = .ok none) :
    simple_set cls r st =
      (.ok (dinsert r "pk" (PyVal.vstr str_uuid_uuid4)),
       dinsert st (key_pattern cls.name [str_uuid_uuid4])
         (__serializer__ (to_primitive cls (dinsert r "pk" (PyVal.vstr str_uuid_uuid4)))),
       [Cmd.setCmd (key_pattern cls.name [str_uuid_uuid4])
         (__serializer__ (to_primitive cls (dinsert r "pk" (PyVal.vstr str_uuid_uuid4))))
         cls.expire]) := by
  unfold simple_set
  simp only [hnone, objKey_after_pk_assign cls r str_uuid_uuid4 str_uuid_uuid4_ne_empty]

theorem hash_set_eval_uuid (cls : RClass) (r : Rec) (hst : HStore)
    (hnone : primary_key cls r = .ok none) :
    hash_set cls r hst =
      (.ok (dinsert r "pk" (PyVal.vstr str_uuid_uuid4)),
       dinsert hst (set_key cls)
         (dinsert ((dlookup hst (set_key cls)).getD []) (key_pattern cls.name [str_uuid_uuid4])
           (__serializer__ (to_primitive cls (dinsert r "pk" (PyVal.vstr str_uuid_uuid4))))),
       [Cmd.hsetCmd (set_key cls) (key_pattern cls.name [str_uuid_uuid4])
         (__serializer__ (to_primitive cls (dinsert r "pk" (PyVal.vstr str_uuid_uuid4)))),
        Cmd.expireCmd (set_key cls) cls.expire]) := by
  unfold hash_set
  simp only [hnone, objKey_after_pk_assign cls r str_uuid_uuid4 str_uuid_uuid4_ne_empty]

/-- Claim C9: when the primary key does not resolve (falsy `pk`, falsy `id`,
no truthy `__unique_args__`), `set()` assigns the constant string
`str(uuid.uuid4)` — the function object's text, not a fresh UUID — to every
such record, so both records land under the same storage key and the second
`set()` overwrites the first, on both layouts. -/
theorem claim_C9_constant_uuid_pk (cls : RClass) (r1 r2 : Rec) (st : SStore)
    (hst : HStore)
    (h1pk : truthy (getattrD r1 "pk") = false)
    (h1id : truthy (getattrD r1 "id") = false)
    (h2pk : truthy (getattrD r2 "pk") = false)
    (h2id : truthy (getattrD r2 "id") = false)
    (hua : uaTruthy cls = false) :
    (∃ r1x st1 tr1 r2x st2 tr2,
      simple_set cls r1 st = (.ok r1x, st1, tr1) ∧
      dlookup r1x "pk" = some (PyVal.vstr str_uuid_uuid4) ∧
      simple_set cls r2 st1 = (.ok r2x, st2, tr2) ∧
      dlookup r2x "pk" = some (PyVal.vstr str_uuid_uuid4) ∧
      dlookup st2 (key_pattern cls.name [str_uuid_uuid4]) =
        some (__serializer__ (to_primitive cls r2x))) ∧
    (∃ r1x hst1 tr1 r2x hst2 tr2,
      hash_set cls r1 hst = (.ok r1x, hst1, tr1) ∧
      dlookup r1x "pk" = some (PyVal.vstr str_uuid_uuid4) ∧
      hash_set cls r2 hst1 = (.ok r2x, hst2, tr2) ∧
      dlookup r2x "pk" = some (PyVal.vstr str_uuid_uuid4) ∧
      hash_hget hst2 (set_key cls) (key_pattern cls.name [str_uuid_uuid4]) =
        some (__serializer__ (to_primitive cls r2x))) := by
  have hn1 : primary_key cls r1 = .ok none := primary_key_none cls r1 h1pk h1id hua
  have hn2 : primary_key cls r2 = .ok none := primary_key_none cls r2 h2pk h2id hua
  have hlook1 : dlookup (dinsert r1 "pk" (PyVal.vstr str_uuid_uuid4)) "pk" =
      some (PyVal.vstr str_uuid_uuid4) := by rw [dlookup_dinsert]; simp
  have hlook2 : dlookup (dinsert r2 "pk" (PyVal.vstr str_uuid_uuid4)) "pk" =
      some (PyVal.vstr str_uuid_uuid4) := by rw [dlookup_dinsert]; simp
  constructor
  · refine ⟨_, _, _, _, _, _, simple_set_eval_uuid cls r1 st hn1, hlook1,
      simple_set_eval_uuid cls r2 _ hn2, hlook2, ?_⟩
    rw [dlookup_dinsert]; simp
  · refine ⟨_, _, _, _, _, _, hash_set_eval_uuid cls r1 hst hn1, hlook1,
      hash_set_eval_uuid cls r2 _ hn2, hlook2, ?_⟩
    unfold hash_hget
    simp [dlookup_dinsert]

/-- Record with neither `pk` nor `id`, used as the claim C9 witness input. -/
def anonRec : Rec := [("name", PyVal.vstr "anonymous")]

/-- Witness for claim C9: two records with no resolvable primary key, stored
on the test class, both get pk `"<function uuid4>"` and collide. -/
theorem claim_C9_constant_uuid_pk_witness :
    (∃ r1x st1 tr1 r2x st2 tr2,
      simple_set TestCls anonRec [] = (.ok r1x, st1, tr1) ∧
      dlookup r1x "pk" = some (PyVal.vstr str_uuid_uuid4) ∧
      simple_set TestCls anonRec st1 = (.ok r2x, st2, tr2) ∧
      dlookup r2x "pk" = some (PyVal.vstr str_uuid_uuid4) ∧
      dlookup st2 (key_pattern TestCls.name [str_uuid_uuid4]) =
        some (__serializer__ (to_primitive TestCls r2x))) ∧
    (∃ r1x hst1 tr1 r2x hst2 tr2,
      hash_set TestCls anonRec [] = (.ok r1x, hst1, tr1) ∧
      dlookup r1x "pk" = some (PyVal.vstr str_uuid_uuid4) ∧
      hash_set TestCls anonRec hst1 = (.ok r2x, hst2, tr2) ∧
      dlookup r2x "pk" = some (PyVal.vstr str_uuid_uuid4) ∧
      hash_hget hst2 (set_key TestCls) (key_pattern TestCls.name [str_uuid_uuid4]) =
        some (__serializer__ (to_primitive TestCls r2x))) :=
  claim_C9_constant_uuid_pk TestCls anonRec anonRec [] []
    (by decide) (by decide) (by decide) (by decide) (by decide)

/-- Claim C7: when the keyword arguments imported into a fresh instance
resolve a truthy primary key `s`, `match(**kwargs)` is exactly
`match_for_pk(s)`; when the primary key resolves to `None` or to the falsy
empty string, `match(**kwargs)` is exactly `match_for_values(**kwargs)` — on
both layouts. -/
theorem claim_C7_match_delegation (cls : RClass)
    (kwargs : List (String × PyVal)) (st : SStore) (hst : HStore) :
    (∀ s : String,
      primary_key cls (import_data [] kwargs) = .ok (some s) → s ≠ "" →
      simple_match cls kwargs st = simple_match_for_pk cls s st ∧
      hash_match cls kwargs hst = hash_match_for_pk cls s hst) ∧
    (primary_key cls (import_data [] kwargs) = .ok none →
      simple_match cls kwargs st = simple_match_for_values cls kwargs st ∧
      hash_match cls kwargs hst = hash_match_for_values cls kwargs hst) ∧
    (primary_key cls (import_data [] kwargs) = .ok (some "") →
      simple_match cls kwargs st = simple_match_for_values cls kwargs st ∧
      hash_match cls kwargs hst = hash_match_for_values cls kwargs hst) := by
  refine ⟨?_, ?_, ?_⟩
  · intro s hres hs
    constructor
    · unfold simple_match
      simp only [hres]
      simp [hs]
    · unfold hash_match
      simp only [hres]
      simp [hs]
  · intro hres
    constructor
    · unfold simple_match
      simp only [hres]
    · unfold hash_match
      simp only [hres]
  · intro hres
    constructor
    · unfold simple_match
      simp only [hres]
      simp
    · unfold hash_match
      simp only [hres]
      simp

/-- Witness for claim C7: `match(id=123)` on the test class resolves primary
key `"123"` and is the same call as `match_for_pk("123")`, on both layouts. -/
theorem claim_C7_match_delegation_witness :
    simple_match TestCls [("id", PyVal.vint 123)] [] =
      simple_match_for_pk TestCls "123" [] ∧
    hash_match TestCls [("id", PyVal.vint 123)] [] =
      hash_match_for_pk TestCls "123" [] :=
  (claim_C7_match_delegation TestCls [("id", PyVal.vint 123)] [] []).1
    "123" (by decide) (by decide)

/-- Record type with the strict-performance flag enabled, on which the Hash
layout's `all()` still performs its scan. -/
def strictHashCls : RClass :=
  { name := "Thing"
    schema_fields := ["pk"]
    unique_args := none
    strict := true
    expire := none }

/-- Hash store holding one record of `strictHashCls`. -/
def demoHStore : HStore := [("Thing", [("Thing:1", [("pk", PyVal.vstr "1")])])]

/-- Claim C2 counterexample: on the Hash layout with the strict-performance
flag enabled, `all()` does not raise `StrictPerformanceException` — it issues
`HGETALL` and returns the stored records, because `HashRedisMixin.all` never
checks `__strict_performance__`. -/
theorem claim_C2_counterexample :
    hash_all strictHashCls demoHStore =
      (.ok [[("pk", PyVal.vstr "1")]], [Cmd.hgetallCmd "Thing"]) ∧
    (hash_all strictHashCls demoHStore).1 ≠ .error .StrictPerformanceException := by
  decide

/-- Claim C2 as amended: with the strict-performance flag enabled,
`SimpleRedisMixin.all`, `SimpleRedisMixin.filter` and `HashRedisMixin.filter`
raise `StrictPerformanceException` before issuing any store command (empty
command trace), but `HashRedisMixin.all` performs no strict check and issues
its `HGETALL` normally. -/
theorem claim_C2_amended_strict (cls : RClass)
    (kwargs : List (String × PyVal)) (st : SStore) (hst : HStore)
    (hstrict : cls.strict = true) :
    simple_all cls st = (.error .StrictPerformanceException, []) ∧
    simple_filter cls kwargs st = (.error .StrictPerformanceException, []) ∧
    hash_filter cls kwargs hst = (.error .StrictPerformanceException, []) ∧
    hash_all cls hst =
      (.ok ((((dlookup hst (set_key cls)).getD []).map Prod.snd).map
        (fun v => import_data [] (__deserializer__ v))),
       [Cmd.hgetallCmd (set_key cls)]) := by
  refine ⟨?_, ?_, ?_, rfl⟩ <;> simp [simple_all, simple_filter, hash_filter, hstrict]

/-- Witness for the amended claim C2 at the strict record type: the three
guarded operations raise with an empty trace, and the Hash layout's `all()`
issues `HGETALL`. -/
theorem claim_C2_amended_strict_witness :
    simple_all strictHashCls [] = (.error .StrictPerformanceException, []) ∧
    simple_filter strictHashCls [] [] = (.error .StrictPerformanceException, []) ∧
    hash_filter strictHashCls [] demoHStore = (.error .StrictPerformanceException, []) ∧
    hash_all strictHashCls demoHStore =
      (.ok ((((dlookup demoHStore (set_key strictHashCls)).getD []).map Prod.snd).map
        (fun v => import_data [] (__deserializer__ v))),
       [Cmd.hgetallCmd (set_key strictHashCls)]) :=
  claim_C2_amended_strict strictHashCls [] [] demoHStore (by decide)

/-- Claim C6: whenever `filter(**kwargs)` returns a result list (rather than
raising), `match_for_values(**kwargs)` raises `NotFound` on zero results,
returns the single record on exactly one, and raises `MultipleFound` on two
or more — on both layouts. -/
theorem claim_C6_match_for_values (cls : RClass)
    (kwargs : List (String × PyVal)) (st : SStore) (hst : HStore) :
    (∀ l tr, simple_filter cls kwargs st = (.ok l, tr) →
      (l = [] → simple_match_for_values cls kwargs st = (.error .NotFound, tr)) ∧
      (∀ x, l = [x] → simple_match_for_values cls kwargs st = (.ok x, tr)) ∧
      (2 ≤ l.length →
        simple_match_for_values cls kwargs st = (.error .MultipleFound, tr))) ∧
    (∀ l tr, hash_filter cls kwargs hst = (.ok l, tr) →
      (l = [] → hash_match_for_values cls kwargs hst = (.error .NotFound, tr)) ∧
      (∀ x, l = [x] → hash_match_for_values cls kwargs hst = (.ok x, tr)) ∧
      (2 ≤ l.length →
        hash_match_for_values cls kwargs hst = (.error .MultipleFound, tr))) := by
  constructor
  · intro l tr h
    refine ⟨?_, ?_, ?_⟩
    · rintro rfl
      unfold simple_match_for_values
      simp only [h]
    · rintro x rfl
      unfold simple_match_for_values
      simp only [h]
    · intro hlen
      unfold simple_match_for_values
      simp only [h]
      match l, hlen with
      | x :: y :: rest, _ => rfl
  · intro l tr h
    refine ⟨?_, ?_, ?_⟩
    · rintro rfl
      unfold hash_match_for_values
      simp only [h]
    · rintro x rfl
      unfold hash_match_for_values
      simp only [h]
    · intro hlen
      unfold hash_match_for_values
      simp only [h]
      match l, hlen with
      | x :: y :: rest, _ => rfl

/-- Simple store holding two records of the test type, so that an unfiltered
`match_for_values` finds multiple records. -/
def demoStoreTwo : SStore :=
  [("TestSimpleModel:1", [("pk", PyVal.vstr "1")]),
   ("TestSimpleModel:2", [("pk", PyVal.vstr "2")])]

/-- Witness for claim C6: on a store with two records and no filters,
`filter` returns both records and `match_for_values` raises
`MultipleFound`. -/
theorem claim_C6_match_for_values_witness :
    simple_match_for_values TestCls [] demoStoreTwo =
      (.error .MultipleFound,
       [Cmd.keysCmd "TestSimpleModel:*",
        Cmd.mgetCmd ["TestSimpleModel:1", "TestSimpleModel:2"]]) :=
  (((claim_C6_match_for_values TestCls [] demoStoreTwo []).1
      [[("pk", PyVal.vstr "1")], [("pk", PyVal.vstr "2")]]
      [Cmd.keysCmd "TestSimpleModel:*",
       Cmd.mgetCmd ["TestSimpleModel:1", "TestSimpleModel:2"]]
      (by decide)).2.2) (by decide)

/-- Claim C8: on a record with `good_number = 42`, the suffix filters
`good_number__lt=43` and `good_number__gt=41` match, while
`good_number__lt=42` and `good_number__gt=42` do not — `__lt`/`__gt` are
strict comparisons of the record's field value against the supplied value. -/
theorem claim_C8_strict_lt_gt :
    match_filters [("good_number", PyVal.vint 42)]
      (group_filters_by_suffix [("good_number__lt", PyVal.vint 43)]) = .ok true ∧
    match_filters [("good_number", PyVal.vint 42)]
      (group_filters_by_suffix [("good_number__gt", PyVal.vint 41)]) = .ok true ∧
    match_filters [("good_number", PyVal.vint 42)]
      (group_filters_by_suffix [("good_number__lt", PyVal.vint 42)]) = .ok false ∧
    match_filters [("good_number", PyVal.vint 42)]
      (group_filters_by_suffix [("good_number__gt", PyVal.vint 42)]) = .ok false := by
  decide

/-- Boolean check that one filter pair evaluates without raising: the suffix
has an operator and the operator returns a value on
`(getattr(obj, k, None), v)`. -/
def pairOk (sfx : String) (obj : Rec) (k : String) (v : PyVal) : Bool :=
  match FILTER_OPS_find sfx with
  | none => false
  | some op =>
    match op (getattrD obj k) v with
    | .ok _ => true
    | .error _ => false

/-- Boolean check that one filter pair evaluates to `True`. -/
def pairTrue (sfx : String) (obj : Rec) (k : String) (v : PyVal) : Bool :=
  match FILTER_OPS_find sfx with
  | none => false
  | some op =>
    match op (getattrD obj k) v with
    | .ok b => b
    | .error _ => false

/-- Boolean check that no pair of a filter group raises. -/
def fgNoErr (obj : Rec) (fg : FilterGroup) : Bool :=
  fg.all (fun sg =>
    (FILTER_OPS_find sg.1).isSome &&
    sg.2.all (fun kv => pairOk sg.1 obj kv.1 kv.2))

/-- Boolean check that every pair of a filter group evaluates to `True`. -/
def fgAllTrue (obj : Rec) (fg : FilterGroup) : Bool :=
  fg.all (fun sg => sg.2.all (fun kv => pairTrue sg.1 obj kv.1 kv.2))

theorem evalGroup_eq_all (obj : Rec) (sfx : String)
    (op : PyVal → PyVal → Except Err Bool) (g : List (String × PyVal))
    (hop : FILTER_OPS_find sfx = some op)
    (h : g.all (fun kv => pairOk sfx obj kv.1 kv.2) = true) :
    evalGroup obj op g = .ok (g.all (fun kv => pairTrue sfx obj kv.1 kv.2)) := by
  induction g with
  | nil => rfl
  | cons kv g ih =>
    obtain ⟨k0, v0⟩ := kv
    rw [List.all_cons, Bool.and_eq_true] at h
    obtain ⟨hhead, htail⟩ := h
    cases hres : op (getattrD obj k0) v0 with
    | error e =>
      exfalso
      simp [pairOk, hop, hres] at hhead
    | ok b =>
      have hpt : pairTrue sfx obj k0 v0 = b := by
        simp [pairTrue, hop, hres]
      cases b with
      | false => simp [evalGroup, hres, List.all_cons, hpt]
      | true => simp [evalGroup, hres, List.all_cons, hpt, ih htail]

theorem match_filters_eq_fgAllTrue (obj : Rec) (fg : FilterGroup)
    (h : fgNoErr obj fg = true) :
    match_filters obj fg = .ok (fgAllTrue obj fg) := by
  induction fg with
  | nil => rfl
  | cons sg fg ih =>
    obtain ⟨sfx, g⟩ := sg
    unfold fgNoErr at h
    rw [List.all_cons, Bool.and_eq_true, Bool.and_eq_true] at h
    obtain ⟨⟨hsome, hgrp⟩, htail⟩ := h
    obtain ⟨op, hop⟩ := Option.isSome_iff_exists.mp hsome
    have heval := evalGroup_eq_all obj sfx op g hop hgrp
    have hrec := ih (by unfold fgNoErr; exact htail)
    cases hall : g.all (fun kv => pairTrue sfx obj kv.1 kv.2) with
    | false =>
      rw [hall] at heval
      simp [match_filters, hop, heval, fgAllTrue, List.all_cons, hall]
    | true =>
      rw [hall] at heval
      simp only [match_filters, hop, heval]
      rw [hrec]
      simp [fgAllTrue, List.all_cons, hall]

/-- Claim C3 counterexample: for a record lacking the filtered field,
`match_filters` with a `__gt` filter raises `TypeError` (the `getattr`
default `None` is order-compared against the number, which Python 3
refuses), so `match_filters` does not avoid raising for all eight
operators. -/
theorem claim_C3_counterexample :
    match_filters [] (group_filters_by_suffix [("x__gt", PyVal.vint 5)]) =
      .error .TypeError := by decide

/-- Claim C3 as amended: `match_filters` fetches each field with a `None`
default, so the lookup itself never raises and the equality/inequality
operators evaluate `None` without raising; and whenever no predicate of the
group raises, `match_filters` returns `False` exactly when some predicate in
some group evaluates to `False` (and `True` otherwise). However the
comparison itself may raise: the four ordering operators raise `TypeError`
when the `None` default is compared against a number. -/
theorem claim_C3_missing_field (obj : Rec) (fg : FilterGroup) (k : String)
    (v : PyVal) (n : Int)
    (hmiss : dlookup obj k = none) (hne : fgNoErr obj fg = true) :
    getattrD obj k = PyVal.vnone ∧
    opEq (getattrD obj k) v = .ok (pyEq PyVal.vnone v) ∧
    opNe (getattrD obj k) v = .ok (!pyEq PyVal.vnone v) ∧
    opLt (getattrD obj k) (PyVal.vint n) = .error .TypeError ∧
    opGt (getattrD obj k) (PyVal.vint n) = .error .TypeError ∧
    opLte (getattrD obj k) (PyVal.vint n) = .error .TypeError ∧
    opGte (getattrD obj k) (PyVal.vint n) = .error .TypeError ∧
    match_filters obj fg = .ok (fgAllTrue obj fg) ∧
    (match_filters obj fg = .ok false ↔
      ∃ sg ∈ fg, ∃ kv ∈ sg.2, pairTrue sg.1 obj kv.1 kv.2 = false) := by
  have hget : getattrD obj k = PyVal.vnone := by
    unfold getattrD
    rw [hmiss]
    rfl
  have hmf := match_filters_eq_fgAllTrue obj fg hne
  refine ⟨hget, ?_, ?_, ?_, ?_, ?_, ?_, hmf, ?_⟩
  · rw [hget]; rfl
  · rw [hget]; rfl
  · rw [hget]; rfl
  · rw [hget]; rfl
  · rw [hget]; rfl
  · rw [hget]; rfl
  rw [hmf]
  constructor
  · intro hfalse
    have : fgAllTrue obj fg = false := by
      cases hval : fgAllTrue obj fg with
      | false => rfl
      | true => rw [hval] at hfalse; cases hfalse
    unfold fgAllTrue at this
    have hnall := (Bool.not_eq_true _).mpr this
    rw [List.all_eq_true] at hnall
    push_neg at hnall
    obtain ⟨sg, hsg, hsgf⟩ := hnall
    refine ⟨sg, hsg, ?_⟩
    have hnall2 := (Bool.not_eq_true _).mpr (Bool.eq_false_iff.mpr hsgf)
    rw [List.all_eq_true] at hnall2
    push_neg at hnall2
    obtain ⟨kv, hkv, hkvf⟩ := hnall2
    exact ⟨kv, hkv, Bool.eq_false_iff.mpr hkvf⟩
  · rintro ⟨sg, hsg, kv, hkv, hkvf⟩
    have : fgAllTrue obj fg = false := by
      unfold fgAllTrue
      rw [Bool.eq_false_iff]
      intro hall
      rw [List.all_eq_true] at hall
      have := hall sg hsg
      rw [List.all_eq_true] at this
      have := this kv hkv
      rw [hkvf] at this
      cases this
    rw [this]

/-- Witness for the amended claim C3: the record `{good_number: 42}` lacks
field `absent`; the filter group of `{good_number__lt: 43}` evaluates
without raising, and the ordering operators raise on the `None` default. -/
theorem claim_C3_missing_field_witness :
    getattrD [("good_number", PyVal.vint 42)] "absent" = PyVal.vnone ∧
    opEq (getattrD [("good_number", PyVal.vint 42)] "absent") (PyVal.vint 7) =
      .ok (pyEq PyVal.vnone (PyVal.vint 7)) ∧
    opNe (getattrD [("good_number", PyVal.vint 42)] "absent") (PyVal.vint 7) =
      .ok (!pyEq PyVal.vnone (PyVal.vint 7)) ∧
    opLt (getattrD [("good_number", PyVal.vint 42)] "absent") (PyVal.vint 7) =
      .error .TypeError ∧
    opGt (getattrD [("good_number", PyVal.vint 42)] "absent") (PyVal.vint 7) =
      .error .TypeError ∧
    opLte (getattrD [("good_number", PyVal.vint 42)] "absent") (PyVal.vint 7) =
      .error .TypeError ∧
    opGte (getattrD [("good_number", PyVal.vint 42)] "absent") (PyVal.vint 7) =
      .error .TypeError ∧
    match_filters [("good_number", PyVal.vint 42)]
        (group_filters_by_suffix [("good_number__lt", PyVal.vint 43)]) =
      .ok (fgAllTrue [("good_number", PyVal.vint 42)]
        (group_filters_by_suffix [("good_number__lt", PyVal.vint 43)])) ∧
    (match_filters [("good_number", PyVal.vint 42)]
        (group_filters_by_suffix [("good_number__lt", PyVal.vint 43)]) = .ok false ↔
      ∃ sg ∈ group_filters_by_suffix [("good_number__lt", PyVal.vint 43)],
        ∃ kv ∈ sg.2,
          pairTrue sg.1 [("good_number", PyVal.vint 42)] kv.1 kv.2 = false) :=
  claim_C3_missing_field [("good_number", PyVal.vint 42)]
    (group_filters_by_suffix [("good_number__lt", PyVal.vint 43)])
    "absent" (PyVal.vint 7) 7 (by decide) (by decide)

/-! ## Claim C4: grouping of filter keys by operator suffix -/

theorem dlookup_some_mem {α : Type} (d : List (String × α)) (q : String)
    (v : α) (h : dlookup d q = some v) : (q, v) ∈ d := by
  induction d with
  | nil => cases h
  | cons x d ih =>
    obtain ⟨a, b⟩ := x
    by_cases hq : a = q
    · subst hq
      simp [dlookup] at h
      subst h
      exact List.mem_cons_self _ _
    · simp [dlookup, hq] at h
      exact List.mem_cons_of_mem _ (ih h)

theorem keys_nodup_val_unique {α : Type} (l : List (String × α)) (k : String)
    (v w : α) (hnd : (keysOf l).Nodup) (hv : (k, v) ∈ l) (hw : (k, w) ∈ l) :
    w = v := by
  induction l with
  | nil => cases hv
  | cons x l ih =>
    obtain ⟨a, b⟩ := x
    have hnd2 : a ∉ keysOf l ∧ (keysOf l).Nodup := by
      rw [keysOf, List.map_cons] at hnd
      exact ⟨(List.nodup_cons.mp hnd).1, (List.nodup_cons.mp hnd).2⟩
    rcases List.mem_cons.mp hv with h1 | h1 <;> rcases List.mem_cons.mp hw with h2 | h2
    · have hb2 : w = b := congrArg Prod.snd h2
      have hb1 : v = b := congrArg Prod.snd h1
      rw [hb2, hb1]
    · exfalso
      apply hnd2.1
      have hk : a = k := (congrArg Prod.fst h1).symm
      exact hk ▸ List.mem_map.mpr ⟨(k, w), h2, rfl⟩
    · exfalso
      apply hnd2.1
      have hk : a = k := (congrArg Prod.fst h2).symm
      exact hk ▸ List.mem_map.mpr ⟨(k, v), h1, rfl⟩
    · exact ih hnd2.2 h1 h2

theorem dlookup_map_keys {α : Type} (f : String → α) (L : List String)
    (q : String) (hq : q ∈ L) :
    dlookup (L.map (fun s => (s, f s))) q = some (f q) := by
  induction L with
  | nil => cases hq
  | cons a L ih =>
    by_cases h : a = q
    · subst h
      simp [dlookup]
    · rcases List.mem_cons.mp hq with h1 | h1
      · exact absurd h1.symm h
      · simp [dlookup, h, ih h1]

/-- Transitivity of Python `endswith`: if `k` ends with both `s1` and the
longer `s2`, then `s2` itself ends with `s1`. -/
theorem pyEndsWith_trans (k s1 s2 : String) (h1 : pyEndsWith k s1 = true)
    (h2 : pyEndsWith k s2 = true) (hle : s1.data.length ≤ s2.data.length) :
    pyEndsWith s2 s1 = true := by
  unfold pyEndsWith at h1 h2 ⊢
  rw [beq_iff_eq] at h1 h2 ⊢
  have hlenB : s2.data.length ≤ k.data.length := by
    have hl := congrArg List.length h2
    rw [List.length_drop] at hl
    omega
  rw [← h2, List.drop_drop, List.length_drop]
  have harith : k.data.length - s2.data.length +
      (k.data.length - (k.data.length - s2.data.length) - s1.data.length) =
      k.data.length - s1.data.length := by omega
  rw [harith, h1]

/-- No `FILTER_OPS` suffix is a Python-`endswith` suffix of a different one
(checked over all 64 pairs). -/
theorem no_key_suffix_of_other :
    ∀ s1 ∈ FILTER_OPS_KEYS, ∀ s2 ∈ FILTER_OPS_KEYS,
      pyEndsWith s2 s1 = true → s1 = s2 := by decide

/-- At most one `FILTER_OPS` suffix matches any given filter key. -/
theorem suffix_unique (k s1 s2 : String) (h1m : s1 ∈ FILTER_OPS_KEYS)
    (h2m : s2 ∈ FILTER_OPS_KEYS) (h1 : pyEndsWith k s1 = true)
    (h2 : pyEndsWith k s2 = true) : s1 = s2 := by
  rcases Nat.le_total s1.data.length s2.data.length with hle | hle
  · exact no_key_suffix_of_other s1 h1m s2 h2m (pyEndsWith_trans k s1 s2 h1 h2 hle)
  · exact (no_key_suffix_of_other s2 h2m s1 h1m (pyEndsWith_trans k s2 s1 h2 h1 hle)).symm

/-- The suffix (if any) that consumes a filter key: the first matching entry
of `FILTER_OPS`, unique by `suffix_unique`. -/
def matchedSuffix (k : String) : Option String :=
  FILTER_OPS_KEYS.find? (fun sfx => pyEndsWith k sfx)

/-- The destination of a filter key in the output of
`group_filters_by_suffix`: the pair (group suffix, dictionary key), where a
suffix-consumed key is cleaned by `replace` (every occurrence removed) and an
unconsumed key keeps its name in the `__eq` group. -/
def slot (k : String) : String × String :=
  match matchedSuffix k with
  | some sfx => (sfx, removeAll k sfx)
  | none => ("__eq", k)

theorem matchedSuffix_eq_of_ends (k sfx : String) (hm : sfx ∈ FILTER_OPS_KEYS)
    (he : pyEndsWith k sfx = true) : matchedSuffix k = some sfx := by
  unfold matchedSuffix
  cases hfind : FILTER_OPS_KEYS.find? (fun s => pyEndsWith k s) with
  | none =>
    rw [List.find?_eq_none] at hfind
    exact absurd he (by simpa using hfind sfx hm)
  | some s0 =>
    have hp : pyEndsWith k s0 = true := by simpa using List.find?_some hfind
    have hm0 : s0 ∈ FILTER_OPS_KEYS := List.mem_of_find?_eq_some hfind
    rw [suffix_unique k s0 sfx hm0 hm hp he]

theorem matchedSuffix_none_of_not_any (k : String) (h : matchesAny k = false) :
    matchedSuffix k = none := by
  unfold matchedSuffix
  rw [List.find?_eq_none]
  intro s hs
  unfold matchesAny at h
  rw [List.any_eq_false] at h
  simpa using h s hs

theorem matchesAny_true_of_ends (k sfx : String) (hm : sfx ∈ FILTER_OPS_KEYS)
    (he : pyEndsWith k sfx = true) : matchesAny k = true := by
  unfold matchesAny
  rw [List.any_eq_true]
  exact ⟨sfx, hm, he⟩

theorem group_lookup (filters : List (String × PyVal)) (sfx : String)
    (hm : sfx ∈ FILTER_OPS_KEYS) :
    dlookup (group_filters_by_suffix filters) sfx =
      some (if sfx = "__eq"
            then dictUpdate (get_suffix filters sfx)
              (filters.filter (fun kv => !matchesAny kv.1))
            else get_suffix filters sfx) := by
  unfold group_filters_by_suffix
  exact dlookup_map_keys
    (fun s => if s = "__eq"
              then dictUpdate (get_suffix filters s)
                (filters.filter (fun kv => !matchesAny kv.1))
              else get_suffix filters s)
    FILTER_OPS_KEYS sfx hm

/-- Claim C4 counterexample: Python `replace` removes *every* occurrence of
the suffix, not only the trailing one: the key `a__lt__lt` is grouped under
`a`, not under `a__lt` as the claim's "only the trailing suffix removed"
requires. -/
theorem claim_C4_counterexample :
    group_filters_by_suffix [("a__lt__lt", PyVal.vint 1)] =
      [("__gt", []), ("__lt", [("a", PyVal.vint 1)]), ("__gte", []),
       ("__lte", []), ("__eq", []), ("__not", []), ("__in", []),
       ("__exclude", [])] ∧
    dlookup (group_filters_by_suffix [("a__lt__lt", PyVal.vint 1)]) "__lt" ≠
      some [("a__lt", PyVal.vint 1)] := by decide

/-- Claim C4 as amended: at most one known suffix matches any filter key, so
the destination `slot` of every key is well defined; a key ending in a known
suffix is placed in that suffix's group under the name obtained by removing
*every* occurrence of the suffix (Python `replace` semantics), and a key
ending in no known suffix is placed, unchanged, in the equality group — with
its value, provided the keys are distinct and no two keys collide on the
same slot (a colliding slot is overwritten by the later key). -/
theorem claim_C4_grouping (filters : List (String × PyVal)) (k : String)
    (v : PyVal)
    (hnodup : (keysOf filters).Nodup)
    (hmem : (k, v) ∈ filters)
    (hinj : ∀ kv ∈ filters, kv.1 ≠ k → slot kv.1 ≠ slot k) :
    (∀ sfx1 sfx2, sfx1 ∈ FILTER_OPS_KEYS → sfx2 ∈ FILTER_OPS_KEYS →
      pyEndsWith k sfx1 = true → pyEndsWith k sfx2 = true → sfx1 = sfx2) ∧
    (matchedSuffix k = none → (slot k).1 = "__eq" ∧ (slot k).2 = k) ∧
    (∀ sfx, matchedSuffix k = some sfx →
      (slot k).1 = sfx ∧ (slot k).2 = removeAll k sfx) ∧
    ∃ g, dlookup (group_filters_by_suffix filters) (slot k).1 = some g ∧
      dlookup g (slot k).2 = some v ∧ ((slot k).2, v) ∈ g := by
  refine ⟨fun s1 s2 h1m h2m h1 h2 => suffix_unique k s1 s2 h1m h2m h1 h2,
    ?_, ?_, ?_⟩
  · intro hnone
    simp [slot, hnone]
  · intro sfx hsome
    simp [slot, hsome]
  · cases hms : matchedSuffix k with
    | some sfx =>
      have hsloteq : slot k = (sfx, removeAll k sfx) := by simp [slot, hms]
      have hend : pyEndsWith k sfx = true := by
        simpa using List.find?_some hms
      have hmemK : sfx ∈ FILTER_OPS_KEYS := List.mem_of_find?_eq_some hms
      have hval : ∀ w, (removeAll k sfx, w) ∈
          ((filters.filter (fun kv => pyEndsWith kv.1 sfx)).map
            (fun kv => (removeAll kv.1 sfx, kv.2))) → w = v := by
        intro w hw
        obtain ⟨⟨k2, v2⟩, hk2mem, heq2⟩ := List.mem_map.mp hw
        obtain ⟨hk2f, hk2end⟩ := List.mem_filter.mp hk2mem
        have hclean : removeAll k2 sfx = removeAll k sfx := congrArg Prod.fst heq2
        have hv2 : v2 = w := congrArg Prod.snd heq2
        by_cases hk2 : k2 = k
        · subst hk2
          rw [← hv2]
          exact keys_nodup_val_unique filters k2 v v2 hnodup hmem hk2f
        · exfalso
          apply hinj (k2, v2) hk2f hk2
          have hms2 : matchedSuffix k2 = some sfx :=
            matchedSuffix_eq_of_ends k2 sfx hmemK (by simpa using hk2end)
          rw [hsloteq]
          simp [slot, hms2, hclean]
      have hmemP : (removeAll k sfx, v) ∈
          ((filters.filter (fun kv => pyEndsWith kv.1 sfx)).map
            (fun kv => (removeAll kv.1 sfx, kv.2))) :=
        List.mem_map.mpr ⟨(k, v), List.mem_filter.mpr ⟨hmem, by simpa using hend⟩, rfl⟩
      have hlookP : dlookup (get_suffix filters sfx) (removeAll k sfx) = some v :=
        dlookup_dictUpdate_const [] _ _ v hmemP hval
      by_cases hsfx : sfx = "__eq"
      · subst hsfx
        have hnotin : removeAll k "__eq" ∉
            keysOf (filters.filter (fun kv => !matchesAny kv.1)) := by
          intro hin
          obtain ⟨⟨k3, v3⟩, hk3, hk3eq⟩ := List.mem_map.mp hin
          obtain ⟨hk3f, hk3na⟩ := List.mem_filter.mp hk3
          have hk3nam : matchesAny k3 = false := by
            cases hma : matchesAny k3 with
            | false => rfl
            | true => rw [hma] at hk3na; cases hk3na
          have hne3 : k3 ≠ k := by
            intro hk3k
            subst hk3k
            rw [matchesAny_true_of_ends k3 "__eq" hmemK hend] at hk3nam
            cases hk3nam
          apply hinj (k3, v3) hk3f hne3
          rw [hsloteq]
          simp [slot, matchedSuffix_none_of_not_any k3 hk3nam]
          exact hk3eq
        refine ⟨dictUpdate (get_suffix filters "__eq")
          (filters.filter (fun kv => !matchesAny kv.1)), ?_, ?_, ?_⟩
        · rw [hsloteq]
          simpa using group_lookup filters "__eq" hmemK
        · rw [hsloteq]
          show dlookup _ (removeAll k "__eq") = some v
          rw [dlookup_dictUpdate_not_mem _ _ _ hnotin]
          exact hlookP
        · rw [hsloteq]
          apply dlookup_some_mem
          show dlookup _ (removeAll k "__eq") = some v
          rw [dlookup_dictUpdate_not_mem _ _ _ hnotin]
          exact hlookP
      · refine ⟨get_suffix filters sfx, ?_, ?_, ?_⟩
        · rw [hsloteq]
          have := group_lookup filters sfx hmemK
          rw [if_neg hsfx] at this
          exact this
        · rw [hsloteq]
          exact hlookP
        · rw [hsloteq]
          exact dlookup_some_mem _ _ _ hlookP
    | none =>
      have hsloteq : slot k = ("__eq", k) := by simp [slot, hms]
      have hna : matchesAny k = false := by
        cases hma : matchesAny k with
        | false => rfl
        | true =>
          exfalso
          unfold matchesAny at hma
          rw [List.any_eq_true] at hma
          obtain ⟨sfx, hsm, hse⟩ := hma
          rw [matchedSuffix_eq_of_ends k sfx hsm hse] at hms
          cases hms
      have hmemE : (k, v) ∈ filters.filter (fun kv => !matchesAny kv.1) :=
        List.mem_filter.mpr ⟨hmem, by simp [hna]⟩
      have hvalE : ∀ w, (k, w) ∈ filters.filter (fun kv => !matchesAny kv.1) →
          w = v := by
        intro w hw
        exact keys_nodup_val_unique filters k v w hnodup hmem
          (List.mem_filter.mp hw).1
      have hlookE : dlookup (dictUpdate (get_suffix filters "__eq")
          (filters.filter (fun kv => !matchesAny kv.1))) k = some v :=
        dlookup_dictUpdate_const _ _ _ v hmemE hvalE
      refine ⟨dictUpdate (get_suffix filters "__eq")
        (filters.filter (fun kv => !matchesAny kv.1)), ?_, ?_, ?_⟩
      · rw [hsloteq]
        simpa using group_lookup filters "__eq" (by decide)
      · rw [hsloteq]
        exact hlookE
      · rw [hsloteq]
        exact dlookup_some_mem _ _ _ hlookE

/-- Witness for the amended claim C4 at the integration-test filters:
`good_number__lt` is consumed by `__lt` and lands under `good_number`, while
`name` matches no suffix and lands unchanged in the equality group. -/
theorem claim_C4_grouping_witness :
    ((∀ sfx1 sfx2, sfx1 ∈ FILTER_OPS_KEYS → sfx2 ∈ FILTER_OPS_KEYS →
      pyEndsWith "good_number__lt" sfx1 = true →
      pyEndsWith "good_number__lt" sfx2 = true → sfx1 = sfx2) ∧
    (matchedSuffix "good_number__lt" = none →
      (slot "good_number__lt").1 = "__eq" ∧
      (slot "good_number__lt").2 = "good_number__lt") ∧
    (∀ sfx, matchedSuffix "good_number__lt" = some sfx →
      (slot "good_number__lt").1 = sfx ∧
      (slot "good_number__lt").2 = removeAll "good_number__lt" sfx) ∧
    ∃ g, dlookup (group_filters_by_suffix
        [("good_number__lt", PyVal.vint 43), ("name", PyVal.vstr "Bar")])
        (slot "good_number__lt").1 = some g ∧
      dlookup g (slot "good_number__lt").2 = some (PyVal.vint 43) ∧
      ((slot "good_number__lt").2, PyVal.vint 43) ∈ g) :=
  claim_C4_grouping
    [("good_number__lt", PyVal.vint 43), ("name", PyVal.vstr "Bar")]
    "good_number__lt" (PyVal.vint 43) (by decide) (by decide) (by decide)

end RedisSchematics
